import Mathlib

/-!
Verification of `mysql_table_creator/sql_manager.py`.

The Python module is shallowly embedded below.  Python exceptions become
`Except` values, the (externally loaded) literal catalog becomes an explicit
`Catalog` parameter, and the effect of `cursor.execute` is recorded as a list
of issued statements.  Python's `re.match` with the module's anchored patterns
is translated character by character; note that in the source engine `$`
matches at the end of the string or just before a single trailing newline,
which the embedding reproduces.
-/

namespace SqlManager

/-- Errors raised by the module.  Every validator in the source raises
`ValueError(msg)`; we keep the formatted message. -/
inductive PyError where
  | valueError (msg : String)
deriving DecidableEq

/-- Native Python values produced by `convert_to_python_type`.  Python's
`float` is an IEEE-754 double; the claims only concern the decimal value
denoted by the matched literal, which we carry exactly as a rational. -/
inductive PyVal where
  | vint (n : Int)
  | vfloat (q : ℚ)
  | vbool (b : Bool)
  | vnone
  | vstr (s : String)
deriving DecidableEq

/-- A statement handed to `cursor.execute`: the SQL text and the sequence of
bound parameters. -/
structure Stmt where
  sql : String
  params : List PyVal
deriving DecidableEq

/-- Modelled from the spec: the Literal Catalog (`sql_literals.json` is not
under `src/`; only its shape is specified).  Per the spec it provides
`datatypes` and `constraints` as lists of regex patterns and `reserved_words`
as a list of uppercase strings.  Each pattern is embedded by its match
semantics: the predicate `s ↦ re.match(pattern, s) succeeds`. -/
structure Catalog where
  datatypes : List (String → Bool)
  constraints : List (String → Bool)
  reserved_words : List String

/-- A column of a table schema: `{name, datatype, constraints}`. -/
structure Column where
  name : String
  datatype : String
  constraints : List String
deriving DecidableEq

/-- A foreign-key entry: `{name, references_table, references_column}`. -/
structure ForeignKey where
  name : String
  references_table : String
  references_column : String
deriving DecidableEq

/-- The table schema dict consumed by `table_creator`; `foreign_keys` is
optional (`if "foreign_keys" in table_schema`). -/
structure TableSchema where
  name : String
  columns : List Column
  foreign_keys : Option (List ForeignKey)
deriving DecidableEq

/-- Python `str.upper` (ASCII case mapping; the source only uppercases
identifier/keyword strings, where the two coincide). -/
def pyUpper (s : String) : String :=
  ⟨s.data.map Char.toUpper⟩

/-- Python `str.lower` (ASCII case mapping). -/
def pyLower (s : String) : String :=
  ⟨s.data.map Char.toLower⟩

/-- Python `str.removesuffix`: drop one copy of `suf` if `s` ends with it. -/
def removesuffix (s suf : String) : String :=
  if suf.data.isSuffixOf s.data then ⟨s.data.take (s.data.length - suf.data.length)⟩
  else s

/-- Whether Python's `$` (without `re.MULTILINE`) matches with `l` left of the
input: at the very end, or just before a single trailing newline. -/
def pyDollar (l : List Char) : Bool :=
  l == [] || l == ['\n']

/-- Characters matched by `[a-zA-Z_]` in the table-name pattern. -/
def tableNameChar (c : Char) : Bool :=
  c.isUpper || c.isLower || c == '_'

/-- Characters matched by `[a-z_]` in the column-name pattern. -/
def columnNameChar (c : Char) : Bool :=
  c.isLower || c == '_'

/-- `re.match(r"^[A-Z][a-zA-Z_]*$", s)` succeeds.  The greedy star and `$`
are deterministic here because `\n` is not in the starred class. -/
def matchTableNameRe (s : String) : Bool :=
  match s.data with
  | [] => false
  | c :: rest => c.isUpper && pyDollar (rest.dropWhile tableNameChar)

/-- `re.match(r"^[a-z_]*$", s)` succeeds. -/
def matchColumnNameRe (s : String) : Bool :=
  pyDollar (s.data.dropWhile columnNameChar)

/-- `clean_reserved_words`: backtick-quote `value` iff its uppercase form is
in the catalog's reserved words. -/
def clean_reserved_words (cat : Catalog) (value : String) : String :=
  if cat.reserved_words.contains (pyUpper value) then "`" ++ value ++ "`"
  else value

/-- `allowed_type`: accept iff any catalog datatype pattern matches the
uppercased input; return the lowercased input. -/
def allowed_type (cat : Catalog) (ty : String) : Except PyError String :=
  if cat.datatypes.any (fun p => p (pyUpper ty)) then .ok (pyLower ty)
  else .error (.valueError ("Type " ++ ty ++ " not allowed"))

/-- `allowed_constraint`: accept iff any catalog constraint pattern matches
the uppercased input; return the uppercased input. -/
def allowed_constraint (cat : Catalog) (constraint : String) : Except PyError String :=
  if cat.constraints.any (fun p => p (pyUpper constraint)) then .ok (pyUpper constraint)
  else .error (.valueError ("Constraint " ++ constraint ++ " not allowed"))

/-- `allowed_value_table`: accept iff the table-name pattern matches; return
the value after reserved-word quoting. -/
def allowed_value_table (cat : Catalog) (value : String) : Except PyError String :=
  if matchTableNameRe value then .ok (clean_reserved_words cat value)
  else .error (.valueError ("Value " ++ value ++ " not allowed"))

/-- `allowed_value_column`: accept iff the column-name pattern matches; return
the value after reserved-word quoting. -/
def allowed_value_column (cat : Catalog) (value : String) : Except PyError String :=
  if matchColumnNameRe value then .ok (clean_reserved_words cat value)
  else .error (.valueError ("Value " ++ value ++ " not allowed"))

/-- Numeric value of a digit list, as read by Python `int`. -/
def natOfDigits (l : List Char) : Nat :=
  l.foldl (fun a c => 10 * a + (c.toNat - '0'.toNat)) 0

/-- Python `int(s)` on a string matching `^[0-9]+$` (a possible trailing
newline is whitespace, which `int` ignores). -/
def pyInt (s : String) : Int :=
  (natOfDigits (s.data.takeWhile Char.isDigit) : Int)

/-- Python `float(s)` on a string matching `^[0-9]+\.[0-9]+$`, as the exact
decimal value. -/
def pyFloatQ (s : String) : ℚ :=
  let d1 := s.data.takeWhile Char.isDigit
  let r := (s.data.dropWhile Char.isDigit).drop 1
  let d2 := r.takeWhile Char.isDigit
  (natOfDigits d1 : ℚ) + (natOfDigits d2 : ℚ) / ((10 : ℚ) ^ d2.length)

/-- `re.match("^lit$", s)` for a literal `lit` not containing `\n`. -/
def litThenDollar (lit : String) (s : String) : Bool :=
  lit.data.isPrefixOf s.data && pyDollar (s.data.drop lit.data.length)

/-- `re.match(r"^[0-9]+$", s)` succeeds. -/
def matchIntRe (s : String) : Bool :=
  match s.data with
  | [] => false
  | c :: rest => c.isDigit && pyDollar (rest.dropWhile Char.isDigit)

/-- `re.match(r"^[0-9]+\.[0-9]+$", s)` succeeds. -/
def matchFloatRe (s : String) : Bool :=
  match s.data.takeWhile Char.isDigit, s.data.dropWhile Char.isDigit with
  | [], _ => false
  | _ :: _, '.' :: r2 =>
      match r2.takeWhile Char.isDigit with
      | [] => false
      | _ :: _ => pyDollar (r2.dropWhile Char.isDigit)
  | _ :: _, _ => false

/-- `re.match(r"^(true|false)$", s)` succeeds. -/
def matchBoolRe (s : String) : Bool :=
  litThenDollar "true" s || litThenDollar "false" s

/-- `re.match(r"^null$", s)` succeeds. -/
def matchNullRe (s : String) : Bool :=
  litThenDollar "null" s

/-- `convert_to_python_type`.  The source first does `value = str(value)`;
the embedding takes the already-stringified value.  The boolean branch is
Python `bool(value)` on the matched *string*, i.e. non-empty-string
truthiness. -/
def convert_to_python_type (value : String) : PyVal :=
  if matchIntRe value then .vint (pyInt value)
  else if matchFloatRe value then .vfloat (pyFloatQ value)
  else if matchBoolRe value then .vbool (!value.isEmpty)
  else if matchNullRe value then .vnone
  else .vstr value

/-- Python `", ".join`. -/
def joinComma : List String → String
  | [] => ""
  | [x] => x
  | x :: y :: rest => x ++ ", " ++ joinComma (y :: rest)

/-- Python `"?, " * n`. -/
def qmarks : Nat → String
  | 0 => ""
  | n + 1 => "?, " ++ qmarks n

/-- The list comprehension `[allowed_value_column(column) for column in
column_names]`: validate left to right, propagating the first error. -/
def validatedColumns (cat : Catalog) : List String → Except PyError (List String)
  | [] => .ok []
  | c :: rest =>
    match allowed_value_column cat c with
    | .error e => .error e
    | .ok v =>
      match validatedColumns cat rest with
      | .error e => .error e
      | .ok vs => .ok (v :: vs)

/-- The inner loop of `table_creator` over one column's constraints: the text
appended is `f"{allowed_constraint(constraint)} "` per constraint. -/
def constraintsPart (cat : Catalog) : List String → Except PyError String
  | [] => .ok ""
  | c :: rest =>
    match allowed_constraint cat c with
    | .error e => .error e
    | .ok v =>
      match constraintsPart cat rest with
      | .error e => .error e
      | .ok r => .ok (v ++ " " ++ r)

/-- The loop of `table_creator` over columns: per column the text appended is
`f"{allowed_value_column(name)} {allowed_type(datatype)} "`, the constraint
texts, then `", "`. -/
def columnsPart (cat : Catalog) : List Column → Except PyError String
  | [] => .ok ""
  | col :: rest =>
    match allowed_value_column cat col.name with
    | .error e => .error e
    | .ok n =>
      match allowed_type cat col.datatype with
      | .error e => .error e
      | .ok t =>
        match constraintsPart cat col.constraints with
        | .error e => .error e
        | .ok cs =>
          match columnsPart cat rest with
          | .error e => .error e
          | .ok r => .ok (n ++ " " ++ t ++ " " ++ cs ++ ", " ++ r)

/-- The loop of `table_creator` over foreign keys: per entry the text appended
is `f"FOREIGN KEY ({column}) REFERENCES {table}({column}) "` then `", "`,
each field validated left to right. -/
def foreignKeysPart (cat : Catalog) : List ForeignKey → Except PyError String
  | [] => .ok ""
  | fk :: rest =>
    match allowed_value_column cat fk.name with
    | .error e => .error e
    | .ok c =>
      match allowed_value_table cat fk.references_table with
      | .error e => .error e
      | .ok t =>
        match allowed_value_column cat fk.references_column with
        | .error e => .error e
        | .ok rc =>
          match foreignKeysPart cat rest with
          | .error e => .error e
          | .ok r =>
            .ok ("FOREIGN KEY (" ++ c ++ ") REFERENCES " ++ t ++ "(" ++ rc ++ ") " ++ ", " ++ r)

/-- The `if "foreign_keys" in table_schema` guard of `table_creator`: no
foreign-key clauses when the key is absent, the loop's text otherwise. -/
def foreignKeysSection (cat : Catalog) : Option (List ForeignKey) → Except PyError String
  | none => .ok ""
  | some fks => foreignKeysPart cat fks

/-- The CREATE TABLE text assembled by `table_creator` before execution:
prefix, column definitions, optional foreign-key clauses, then
`query.removesuffix(", ") + ");"`. -/
def buildCreateQuery (cat : Catalog) (schema : TableSchema) : Except PyError String :=
  match allowed_value_table cat schema.name with
  | .error e => .error e
  | .ok t =>
    match columnsPart cat schema.columns with
    | .error e => .error e
    | .ok colsS =>
      match foreignKeysSection cat schema.foreign_keys with
      | .error e => .error e
      | .ok fksS =>
        .ok (removesuffix ("CREATE TABLE IF NOT EXISTS " ++ t ++ " (" ++ colsS ++ fksS) ", " ++ ");")

/-- Outcome of `table_creator`: the raised error or success, plus the
statements handed to `cursor.execute` (the external executor is out of scope
and modelled as accepting the statement). -/
structure CreateResult where
  result : Except PyError Unit
  stmts : List Stmt

/-- `table_creator`: build the CREATE TABLE text (raising on any validation
failure, before anything reaches the connection) and execute it with no bound
parameters. -/
def table_creator (cat : Catalog) (schema : TableSchema) : CreateResult :=
  match buildCreateQuery cat schema with
  | .error e => ⟨.error e, []⟩
  | .ok q => ⟨.ok (), [⟨q, []⟩]⟩

/-- Outcome of `append_row`: the raised error or success, the statements
handed to `cursor.execute`, and the final state of the caller's `row` list
(which the source mutates in place). -/
structure AppendResult where
  result : Except PyError Unit
  stmts : List Stmt
  row_after : List PyVal

/-- `append_row`: first coerce every row entry in place, then validate the
table name and the column names, then execute
`INSERT INTO <table> (<cols>) VALUES (?, ...);` with the mutated row as the
bound parameters. -/
def append_row (cat : Catalog) (table_name : String) (column_names : List String)
    (row : List String) : AppendResult :=
  let row2 := row.map convert_to_python_type
  match allowed_value_table cat table_name with
  | .error e => ⟨.error e, [], row2⟩
  | .ok t =>
    match validatedColumns cat column_names with
    | .error e => ⟨.error e, [], row2⟩
    | .ok cols =>
      let query := "INSERT INTO " ++ t ++ " (" ++ joinComma cols ++ ") VALUES (" ++
        qmarks row.length
      ⟨.ok (), [⟨removesuffix query ", " ++ ");", row2⟩], row2⟩

/-- Whether an `Except` outcome is a success. -/
def okB {α : Type} : Except PyError α → Bool
  | .ok _ => true
  | .error _ => false

/-- Spec-side reading of the starred pattern followed by the source engine's
`$`: every character satisfies `P`, except that the last character may
instead be a newline. -/
def optNlAll (P : Char → Bool) : List Char → Bool
  | [] => true
  | [c] => P c || c == '\n'
  | c :: d :: rest => P c && optNlAll P (d :: rest)

/-- Spec-side reading of `^[A-Z][a-zA-Z_]*$`: a leading uppercase letter, then
letters/underscores (with the engine's optional trailing newline). -/
def specTableNameOk (s : String) : Bool :=
  match s.data with
  | [] => false
  | c :: rest => c.isUpper && optNlAll tableNameChar rest

/-- Spec-side reading of `^[a-z_]*$`: lowercase letters/underscores only,
the empty string included (with the engine's optional trailing newline). -/
def specColumnNameOk (s : String) : Bool :=
  optNlAll columnNameChar s.data

/-- Spec-side reading of `^[0-9]+$`: one or more digits (with the engine's
optional trailing newline). -/
def specIntOk (s : String) : Bool :=
  match s.data with
  | [] => false
  | c :: rest => c.isDigit && optNlAll Char.isDigit rest

lemma pyDollar_single (c : Char) : pyDollar [c] = (c == '\n') := by
  cases hcn : c == '\n' with
  | true =>
    have h := eq_of_beq hcn
    subst h
    decide
  | false =>
    have h : ¬ c = '\n' := by
      intro h
      subst h
      simp at hcn
    simp [pyDollar, h]

lemma pyDollar_dropWhile (P : Char → Bool) :
    ∀ l : List Char, pyDollar (l.dropWhile P) = optNlAll P l := by
  intro l
  induction l with
  | nil => rfl
  | cons c l ih =>
    cases hc : P c with
    | true =>
      rw [List.dropWhile_cons_of_pos (by simp [hc])]
      rw [ih]
      cases l with
      | nil =>
        show optNlAll P [] = optNlAll P [c]
        simp [optNlAll, hc]
      | cons d m =>
        show optNlAll P (d :: m) = optNlAll P (c :: d :: m)
        simp [optNlAll, hc]
    | false =>
      rw [List.dropWhile_cons_of_neg (by simp [hc])]
      cases l with
      | nil =>
        rw [pyDollar_single]
        show (c == '\n') = optNlAll P [c]
        cases hcn : c == '\n' with
        | true =>
          have h := eq_of_beq hcn
          subst h
          simp [optNlAll]
        | false => simp [optNlAll, hc, hcn]
      | cons d m =>
        show pyDollar (c :: d :: m) = optNlAll P (c :: d :: m)
        simp [pyDollar, optNlAll, hc]

lemma matchTableNameRe_eq_spec (s : String) :
    matchTableNameRe s = specTableNameOk s := by
  obtain ⟨l⟩ := s
  cases l with
  | nil => rfl
  | cons c rest =>
    show (c.isUpper && pyDollar (rest.dropWhile tableNameChar)) =
      (c.isUpper && optNlAll tableNameChar rest)
    rw [pyDollar_dropWhile tableNameChar]

lemma matchColumnNameRe_eq_spec (s : String) :
    matchColumnNameRe s = specColumnNameOk s := by
  obtain ⟨l⟩ := s
  show pyDollar (l.dropWhile columnNameChar) = optNlAll columnNameChar l
  rw [pyDollar_dropWhile columnNameChar]

lemma matchIntRe_eq_spec (s : String) :
    matchIntRe s = specIntOk s := by
  obtain ⟨l⟩ := s
  cases l with
  | nil => rfl
  | cons c rest =>
    show (c.isDigit && pyDollar (rest.dropWhile Char.isDigit)) =
      (c.isDigit && optNlAll Char.isDigit rest)
    rw [pyDollar_dropWhile Char.isDigit]

lemma takeWhile_append_of_all (P : Char → Bool) :
    ∀ (l1 l2 : List Char), l1.all P = true →
      (l1 ++ l2).takeWhile P = l1 ++ l2.takeWhile P := by
  intro l1 l2 h
  induction l1 with
  | nil => rfl
  | cons c m ih =>
    simp only [List.all_cons, Bool.and_eq_true] at h
    simp [List.takeWhile, h.1, ih h.2]

lemma dropWhile_append_of_all (P : Char → Bool) :
    ∀ (l1 l2 : List Char), l1.all P = true →
      (l1 ++ l2).dropWhile P = l2.dropWhile P := by
  intro l1 l2 h
  induction l1 with
  | nil => rfl
  | cons c m ih =>
    simp only [List.all_cons, Bool.and_eq_true] at h
    simp [List.dropWhile, h.1, ih h.2]

lemma takeWhile_eq_self_of_all (P : Char → Bool) :
    ∀ l : List Char, l.all P = true → l.takeWhile P = l := by
  intro l h
  induction l with
  | nil => rfl
  | cons c m ih =>
    simp only [List.all_cons, Bool.and_eq_true] at h
    simp [List.takeWhile, h.1, ih h.2]

lemma string_data_append (s t : String) : (s ++ t).data = s.data ++ t.data := rfl

/-- C1: for every string `s`, `allowed_value_table` succeeds iff `s` matches
`^[A-Z][a-zA-Z_]*$` (under the source engine's `re.match`, whose `$` also
matches before one trailing newline); on success it returns `s`
backtick-quoted iff `uppercase(s)` is in the catalog's reserved words and `s`
unchanged otherwise, and on every other string it fails with the
invalid-identifier `ValueError` rejection. -/
theorem allowed_value_table_characterized (cat : Catalog) (s : String) :
    allowed_value_table cat s =
      (if specTableNameOk s then
        Except.ok (if cat.reserved_words.contains (pyUpper s) then "`" ++ s ++ "`" else s)
      else Except.error (.valueError ("Value " ++ s ++ " not allowed"))) := by
  simp only [allowed_value_table, matchTableNameRe_eq_spec, clean_reserved_words]

/-- C6: for every string `s`, `allowed_value_column` succeeds iff `s` matches
`^[a-z_]*$` (under the source engine's `re.match`) — in particular the empty
string is accepted — and every other string, such as one containing a
semicolon or a space, fails with the invalid-identifier `ValueError`
rejection. -/
theorem allowed_value_column_characterized (cat : Catalog) (s : String) :
    (allowed_value_column cat s =
      (if specColumnNameOk s then Except.ok (clean_reserved_words cat s)
       else Except.error (.valueError ("Value " ++ s ++ " not allowed"))))
    ∧ specColumnNameOk "" = true
    ∧ specColumnNameOk "person; drop" = false
    ∧ specColumnNameOk "person name" = false := by
  refine ⟨?_, by decide, by decide, by decide⟩
  simp only [allowed_value_column, matchColumnNameRe_eq_spec]

lemma pyDollar_cons_cons (c d : Char) (m : List Char) : pyDollar (c :: d :: m) = false := by
  simp [pyDollar]

lemma dropWhile_eq_nil_of_all (P : Char → Bool) :
    ∀ l : List Char, l.all P = true → l.dropWhile P = [] := by
  intro l h
  induction l with
  | nil => rfl
  | cons c m ih =>
    simp only [List.all_cons, Bool.and_eq_true] at h
    simp [List.dropWhile, h.1, ih h.2]

/-- C10: `append_row` destructively mutates the caller's `row` list — every
element is replaced in place by `convert_to_python_type(row[i])` before any
identifier validation runs, so the final state of the caller's list is the
coerced list unconditionally, also on calls that fail validation and issue no
SQL. -/
theorem append_row_mutates_caller_row (cat : Catalog) (t : String) (cols : List String)
    (row : List String) :
    (append_row cat t cols row).row_after = row.map convert_to_python_type := by
  unfold append_row
  cases havt : allowed_value_table cat t with
  | error e => simp
  | ok v =>
    cases hvc : validatedColumns cat cols with
    | error e => simp [hvc]
    | ok vs => simp [hvc]

/-- C3: on any validation failure in `table_creator` or `append_row` the call
raises before any call to `cursor.execute` — no SQL text at all, and hence no
rejected fragment, reaches the connection. -/
theorem validation_failure_no_sql :
    (∀ (cat : Catalog) (schema : TableSchema) (e : PyError),
        (table_creator cat schema).result = .error e →
        (table_creator cat schema).stmts = []) ∧
    (∀ (cat : Catalog) (t : String) (cols row : List String) (e : PyError),
        (append_row cat t cols row).result = .error e →
        (append_row cat t cols row).stmts = []) := by
  constructor
  · intro cat schema e h
    unfold table_creator at h ⊢
    cases hq : buildCreateQuery cat schema with
    | error e2 => simp
    | ok q =>
      rw [hq] at h
      exact absurd h (by simp)
  · intro cat t cols row e h
    unfold append_row at h ⊢
    cases havt : allowed_value_table cat t with
    | error e2 => simp
    | ok v =>
      rw [havt] at h
      cases hvc : validatedColumns cat cols with
      | error e2 => simp [havt, hvc]
      | ok vs =>
        rw [hvc] at h
        exact absurd h (by simp)

/-- Witness for C3 at a concrete rejected identifier. -/
theorem validation_failure_no_sql_witness :
    (table_creator ⟨[], [], []⟩ ⟨"bad name", [], none⟩).stmts = [] ∧
    (append_row ⟨[], [], []⟩ "bad name" [] []).stmts = [] :=
  ⟨validation_failure_no_sql.1 ⟨[], [], []⟩ ⟨"bad name", [], none⟩
      (.valueError ("Value " ++ "bad name" ++ " not allowed")) rfl,
   validation_failure_no_sql.2 ⟨[], [], []⟩ "bad name" [] []
      (.valueError ("Value " ++ "bad name" ++ " not allowed")) rfl⟩

/-- C4: the SQL text that `append_row` produces depends only on the table
name, the column names and the number of row values — two rows of equal
length yield identical SQL text (and identical outcome) — and the coerced row
reaches the statement only as the bound-parameter sequence. -/
theorem insert_sql_independent_of_row :
    (∀ (cat : Catalog) (t : String) (cols row1 row2 : List String),
        row1.length = row2.length →
        (append_row cat t cols row1).stmts.map Stmt.sql =
          (append_row cat t cols row2).stmts.map Stmt.sql ∧
        (append_row cat t cols row1).result = (append_row cat t cols row2).result) ∧
    (∀ (cat : Catalog) (t : String) (cols row : List String), ∀ st : Stmt,
        st ∈ (append_row cat t cols row).stmts →
        st.params = row.map convert_to_python_type) := by
  constructor
  · intro cat t cols row1 row2 h
    unfold append_row
    cases havt : allowed_value_table cat t with
    | error e => simp
    | ok v =>
      cases hvc : validatedColumns cat cols with
      | error e => simp [hvc]
      | ok vs => simp [hvc, h]
  · intro cat t cols row st hmem
    unfold append_row at hmem
    cases havt : allowed_value_table cat t with
    | error e =>
      rw [havt] at hmem
      simp at hmem
    | ok v =>
      rw [havt] at hmem
      cases hvc : validatedColumns cat cols with
      | error e =>
        rw [hvc] at hmem
        simp at hmem
      | ok vs =>
        rw [hvc] at hmem
        simp only [List.mem_singleton] at hmem
        rw [hmem]

/-- Witness for C4 at concrete equal-length rows with different values. -/
theorem insert_sql_independent_of_row_witness :
    (append_row ⟨[], [], []⟩ "T" ["a"] ["1", "x"]).stmts.map Stmt.sql =
      (append_row ⟨[], [], []⟩ "T" ["a"] ["2", "y"]).stmts.map Stmt.sql ∧
    (Stmt.mk "INSERT INTO T (a) VALUES (?, ?);" [.vint 1, .vstr "x"]).params =
      ["1", "x"].map convert_to_python_type :=
  ⟨(insert_sql_independent_of_row.1 ⟨[], [], []⟩ "T" ["a"] ["1", "x"] ["2", "y"] rfl).1,
   insert_sql_independent_of_row.2 ⟨[], [], []⟩ "T" ["a"] ["1", "x"]
      (Stmt.mk "INSERT INTO T (a) VALUES (?, ?);" [.vint 1, .vstr "x"]) (by decide)⟩

/-- C8: `convert_to_python_type` tests the stringified input against the
ordered patterns integer, floating point, boolean, null, converting on the
first match — digits parse as an integer, `<digits>.<digits>` as the denoted
decimal, `true`/`false` through non-empty-string truthiness, `null` to none —
and with no match the value passes through unchanged as text, so the function
is total by construction. -/
theorem convert_cascade :
    (∀ s : String, specIntOk s = true → convert_to_python_type s = .vint (pyInt s)) ∧
    (∀ d1 d2 : List Char, d1 ≠ [] → d2 ≠ [] →
        d1.all Char.isDigit = true → d2.all Char.isDigit = true →
        convert_to_python_type ⟨d1 ++ '.' :: d2⟩ =
          .vfloat ((natOfDigits d1 : ℚ) + (natOfDigits d2 : ℚ) / ((10 : ℚ) ^ d2.length))) ∧
    (∀ s : String, s = "true" ∨ s = "false" → convert_to_python_type s = .vbool true) ∧
    convert_to_python_type "null" = .vnone ∧
    (∀ s : String, matchIntRe s = false → matchFloatRe s = false → matchBoolRe s = false →
        matchNullRe s = false → convert_to_python_type s = .vstr s) ∧
    convert_to_python_type "42" = .vint 42 ∧
    convert_to_python_type "3.14" = .vfloat (157 / 50) ∧
    convert_to_python_type "hello" = .vstr "hello" := by
  refine ⟨?_, ?_, ?_, rfl, ?_, rfl, ?_, rfl⟩
  · intro s h
    have hm : matchIntRe s = true := (matchIntRe_eq_spec s).trans h
    simp [convert_to_python_type, hm]
  · intro d1 d2 h1 h2 hd1 hd2
    obtain ⟨a, d1', rfl⟩ : ∃ a t, d1 = a :: t := by
      cases d1 with
      | nil => exact absurd rfl h1
      | cons a t => exact ⟨a, t, rfl⟩
    obtain ⟨b, d2', rfl⟩ : ∃ b t, d2 = b :: t := by
      cases d2 with
      | nil => exact absurd rfl h2
      | cons b t => exact ⟨b, t, rfl⟩
    simp only [List.all_cons, Bool.and_eq_true] at hd1 hd2
    rw [List.cons_append]
    have hd2all : (b :: d2').all Char.isDigit = true := by
      simp [List.all_cons, hd2.1, hd2.2]
    have hdw : (d1' ++ '.' :: b :: d2').dropWhile Char.isDigit = '.' :: b :: d2' := by
      rw [dropWhile_append_of_all Char.isDigit d1' _ hd1.2]
      exact List.dropWhile_cons_of_neg (by decide)
    have hdwFull : (a :: (d1' ++ '.' :: b :: d2')).dropWhile Char.isDigit =
        '.' :: b :: d2' := by
      rw [List.dropWhile_cons_of_pos (by simp [hd1.1]), hdw]
    have htw : (a :: (d1' ++ '.' :: b :: d2')).takeWhile Char.isDigit = a :: d1' := by
      rw [List.takeWhile_cons_of_pos (by simp [hd1.1]),
        takeWhile_append_of_all Char.isDigit d1' _ hd1.2,
        List.takeWhile_cons_of_neg (by decide)]
      simp
    have hmi : matchIntRe ⟨a :: (d1' ++ '.' :: b :: d2')⟩ = false := by
      show (a.isDigit && pyDollar ((d1' ++ '.' :: b :: d2').dropWhile Char.isDigit)) = false
      rw [hdw, pyDollar_cons_cons]
      simp
    have hmf : matchFloatRe ⟨a :: (d1' ++ '.' :: b :: d2')⟩ = true := by
      simp only [matchFloatRe]
      rw [htw, hdwFull]
      show (match (b :: d2').takeWhile Char.isDigit with
        | [] => false
        | _ :: _ => pyDollar ((b :: d2').dropWhile Char.isDigit)) = true
      rw [takeWhile_eq_self_of_all Char.isDigit _ hd2all]
      show pyDollar ((b :: d2').dropWhile Char.isDigit) = true
      rw [dropWhile_eq_nil_of_all Char.isDigit _ hd2all]
      rfl
    have hcv : convert_to_python_type ⟨a :: (d1' ++ '.' :: b :: d2')⟩ =
        .vfloat (pyFloatQ ⟨a :: (d1' ++ '.' :: b :: d2')⟩) := by
      simp [convert_to_python_type, hmi, hmf]
    rw [hcv]
    have e : pyFloatQ ⟨a :: (d1' ++ '.' :: b :: d2')⟩ =
        (natOfDigits ((a :: (d1' ++ '.' :: b :: d2')).takeWhile Char.isDigit) : ℚ) +
          (natOfDigits ((((a :: (d1' ++ '.' :: b :: d2')).dropWhile
              Char.isDigit).drop 1).takeWhile Char.isDigit) : ℚ) /
            ((10 : ℚ) ^ ((((a :: (d1' ++ '.' :: b :: d2')).dropWhile
              Char.isDigit).drop 1).takeWhile Char.isDigit).length) := rfl
    rw [e, htw, hdwFull]
    rw [show ('.' :: b :: d2').drop 1 = b :: d2' from rfl]
    rw [takeWhile_eq_self_of_all Char.isDigit _ hd2all]
  · intro s h
    rcases h with rfl | rfl <;> rfl
  · intro s h1 h2 h3 h4
    simp [convert_to_python_type, h1, h2, h3, h4]
  · have h : convert_to_python_type "3.14" = .vfloat (pyFloatQ "3.14") := rfl
    rw [h]
    have h2 : pyFloatQ "3.14" =
        (natOfDigits ['3'] : ℚ) + (natOfDigits ['1', '4'] : ℚ) / ((10 : ℚ) ^ 2) := rfl
    rw [h2, show natOfDigits ['3'] = 3 from rfl, show natOfDigits ['1', '4'] = 14 from rfl]
    norm_num

/-- Witness for C8 at concrete inputs for each guarded branch. -/
theorem convert_cascade_witness :
    convert_to_python_type "0042" = .vint (pyInt "0042") ∧
    convert_to_python_type ⟨['1'] ++ '.' :: ['5']⟩ =
      .vfloat ((natOfDigits ['1'] : ℚ) +
        (natOfDigits ['5'] : ℚ) / ((10 : ℚ) ^ (['5'] : List Char).length)) ∧
    convert_to_python_type "true" = .vbool true ∧
    convert_to_python_type "yes" = .vstr "yes" :=
  ⟨convert_cascade.1 "0042" (by decide),
   convert_cascade.2.1 ['1'] ['5'] (by decide) (by decide) (by decide) (by decide),
   convert_cascade.2.2.1 "true" (Or.inl rfl),
   convert_cascade.2.2.2.2.1 "yes" (by decide) (by decide) (by decide) (by decide)⟩

/-- C2 counterexample: at table `Person`, column names `["id", "name"]` and the
shorter row `["1"]`, `append_row` does not fail at all — it builds and executes
`INSERT INTO Person (id, name) VALUES (?);` (two columns, one placeholder), so
SQL is passed to the connection's execute method despite the arity mismatch. -/
theorem append_row_arity_cex :
    (append_row ⟨[], [], []⟩ "Person" ["id", "name"] ["1"]).result = .ok () ∧
    (append_row ⟨[], [], []⟩ "Person" ["id", "name"] ["1"]).stmts =
      [⟨"INSERT INTO Person (id, name) VALUES (?);", [.vint 1]⟩] :=
  ⟨rfl, rfl⟩

/-- C2 amended: `append_row` performs no arity check.  Whenever the table name
and the column names pass validation it executes exactly one INSERT statement
whose column list comes from `column_names` and which carries one placeholder
per `row` element, with the coerced row as parameters — also when the two
lengths differ; any failure then comes from the database driver, after the SQL
has been issued. -/
theorem append_row_no_arity_check (cat : Catalog) (t : String) (cols : List String)
    (row : List String) (t' : String) (cols' : List String)
    (hT : allowed_value_table cat t = .ok t')
    (hC : validatedColumns cat cols = .ok cols') :
    append_row cat t cols row =
      ⟨.ok (),
       [⟨removesuffix ("INSERT INTO " ++ t' ++ " (" ++ joinComma cols' ++ ") VALUES (" ++
          qmarks row.length) ", " ++ ");", row.map convert_to_python_type⟩],
       row.map convert_to_python_type⟩ := by
  unfold append_row
  rw [hT, hC]

/-- Witness for the amended C2 at a concrete length-mismatched call. -/
theorem append_row_no_arity_check_witness :
    append_row ⟨[], [], []⟩ "Person" ["id", "name"] ["1"] =
      ⟨.ok (),
       [⟨removesuffix ("INSERT INTO " ++ "Person" ++ " (" ++ joinComma ["id", "name"] ++
          ") VALUES (" ++ qmarks (["1"] : List String).length) ", " ++ ");",
         ["1"].map convert_to_python_type⟩],
       ["1"].map convert_to_python_type⟩ :=
  append_row_no_arity_check ⟨[], [], []⟩ "Person" ["id", "name"] ["1"] "Person"
    ["id", "name"] rfl rfl

lemma foreignKeysPart_err (cat : Catalog) :
    ∀ (fks : List ForeignKey) (fk : ForeignKey), fk ∈ fks →
      (okB (allowed_value_column cat fk.name) = false ∨
       okB (allowed_value_table cat fk.references_table) = false ∨
       okB (allowed_value_column cat fk.references_column) = false) →
      okB (foreignKeysPart cat fks) = false := by
  intro fks
  induction fks with
  | nil =>
    intro fk h
    exact absurd h (List.not_mem_nil fk)
  | cons g rest ih =>
    intro fk hmem hbad
    cases hn : allowed_value_column cat g.name with
    | error e => simp [foreignKeysPart, hn, okB]
    | ok c =>
      cases ht : allowed_value_table cat g.references_table with
      | error e => simp [foreignKeysPart, hn, ht, okB]
      | ok t =>
        cases hrc : allowed_value_column cat g.references_column with
        | error e => simp [foreignKeysPart, hn, ht, hrc, okB]
        | ok rc =>
          cases hr : foreignKeysPart cat rest with
          | error e => simp [foreignKeysPart, hn, ht, hrc, hr, okB]
          | ok r =>
            rcases List.mem_cons.mp hmem with rfl | hmem'
            · rcases hbad with hb | hb | hb
              · rw [hn] at hb
                simp [okB] at hb
              · rw [ht] at hb
                simp [okB] at hb
              · rw [hrc] at hb
                simp [okB] at hb
            · have hih := ih fk hmem' hbad
              rw [hr] at hih
              simp [okB] at hih

lemma foreignKeysPart_infix (cat : Catalog) :
    ∀ (fks : List ForeignKey) (s : String), foreignKeysPart cat fks = .ok s →
      ∀ fk ∈ fks, ∀ c t rc : String,
        allowed_value_column cat fk.name = .ok c →
        allowed_value_table cat fk.references_table = .ok t →
        allowed_value_column cat fk.references_column = .ok rc →
        ("FOREIGN KEY (" ++ c ++ ") REFERENCES " ++ t ++ "(" ++ rc ++ ") ").data <:+:
          s.data := by
  intro fks
  induction fks with
  | nil =>
    intro s hs fk hmem
    exact absurd hmem (List.not_mem_nil fk)
  | cons g rest ih =>
    intro s hs fk hmem c t rc hc ht hrc
    simp only [foreignKeysPart] at hs
    rcases List.mem_cons.mp hmem with rfl | hmem'
    · rw [hc, ht, hrc] at hs
      cases hr : foreignKeysPart cat rest with
      | error e =>
        rw [hr] at hs
        exact absurd hs (by simp)
      | ok r =>
        rw [hr] at hs
        have hs' : "FOREIGN KEY (" ++ c ++ ") REFERENCES " ++ t ++ "(" ++ rc ++ ") " ++
            ", " ++ r = s := by
          injection hs
        apply List.IsPrefix.isInfix
        refine ⟨(", " ++ r).data, ?_⟩
        rw [← hs']
        simp [string_data_append, List.append_assoc]
    · cases hn : allowed_value_column cat g.name with
      | error e =>
        rw [hn] at hs
        exact absurd hs (by simp)
      | ok c0 =>
        rw [hn] at hs
        cases ht0 : allowed_value_table cat g.references_table with
        | error e =>
          rw [ht0] at hs
          exact absurd hs (by simp)
        | ok t0 =>
          rw [ht0] at hs
          cases hrc0 : allowed_value_column cat g.references_column with
          | error e =>
            rw [hrc0] at hs
            exact absurd hs (by simp)
          | ok rc0 =>
            rw [hrc0] at hs
            cases hr : foreignKeysPart cat rest with
            | error e =>
              rw [hr] at hs
              exact absurd hs (by simp)
            | ok r =>
              rw [hr] at hs
              have hs' : "FOREIGN KEY (" ++ c0 ++ ") REFERENCES " ++ t0 ++ "(" ++ rc0 ++
                  ") " ++ ", " ++ r = s := by
                injection hs
              have hinf := ih r hr fk hmem' c t rc hc ht hrc
              refine hinf.trans ?_
              apply List.IsSuffix.isInfix
              refine ⟨("FOREIGN KEY (" ++ c0 ++ ") REFERENCES " ++ t0 ++ "(" ++ rc0 ++
                ") " ++ ", ").data, ?_⟩
              rw [← hs']
              simp [string_data_append, List.append_assoc]

lemma buildCreateQuery_parts (cat : Catalog) (schema : TableSchema) (q : String)
    (h : buildCreateQuery cat schema = .ok q) :
    ∃ t0 colsS fksS, allowed_value_table cat schema.name = .ok t0 ∧
      columnsPart cat schema.columns = .ok colsS ∧
      foreignKeysSection cat schema.foreign_keys = Except.ok fksS ∧
      q = removesuffix ("CREATE TABLE IF NOT EXISTS " ++ t0 ++ " (" ++ colsS ++ fksS)
        ", " ++ ");" := by
  unfold buildCreateQuery at h
  cases h1 : allowed_value_table cat schema.name with
  | error e =>
    rw [h1] at h
    exact absurd h (by simp)
  | ok t0 =>
    rw [h1] at h
    cases h2 : columnsPart cat schema.columns with
    | error e =>
      rw [h2] at h
      exact absurd h (by simp)
    | ok colsS =>
      rw [h2] at h
      cases h3 : foreignKeysSection cat schema.foreign_keys with
      | error e =>
        rw [h3] at h
        exact absurd h (by simp)
      | ok fksS =>
        rw [h3] at h
        have hq : removesuffix ("CREATE TABLE IF NOT EXISTS " ++ t0 ++ " (" ++ colsS ++
            fksS) ", " ++ ");" = q := by
          injection h
        exact ⟨t0, colsS, fksS, rfl, rfl, rfl, hq.symm⟩

/-- C5: in `table_creator`, every field of every foreign-key entry passes its
allow-list validator — the key column and referenced column the column-name
validator, the referenced table the table-name validator — before being
interpolated; each validated clause appears in the executed text's foreign-key
section in the form `FOREIGN KEY (<col>) REFERENCES <table>(<col>)`, and if
any foreign-key field fails validation the whole build fails. -/
theorem foreign_key_fields_validated (cat : Catalog) (schema : TableSchema)
    (fks : List ForeignKey) (hfk : schema.foreign_keys = some fks) :
    (∀ fk ∈ fks,
        (okB (allowed_value_column cat fk.name) = false ∨
         okB (allowed_value_table cat fk.references_table) = false ∨
         okB (allowed_value_column cat fk.references_column) = false) →
        okB (table_creator cat schema).result = false) ∧
    (okB (table_creator cat schema).result = true →
        ∀ fk ∈ fks,
          okB (allowed_value_column cat fk.name) = true ∧
          okB (allowed_value_table cat fk.references_table) = true ∧
          okB (allowed_value_column cat fk.references_column) = true) ∧
    (∀ t0 colsS fksS : String,
        allowed_value_table cat schema.name = .ok t0 →
        columnsPart cat schema.columns = .ok colsS →
        foreignKeysPart cat fks = .ok fksS →
        (table_creator cat schema).stmts =
          [⟨removesuffix ("CREATE TABLE IF NOT EXISTS " ++ t0 ++ " (" ++ colsS ++ fksS)
            ", " ++ ");", []⟩] ∧
        (∀ fk ∈ fks, ∀ c t rc : String,
            allowed_value_column cat fk.name = .ok c →
            allowed_value_table cat fk.references_table = .ok t →
            allowed_value_column cat fk.references_column = .ok rc →
            ("FOREIGN KEY (" ++ c ++ ") REFERENCES " ++ t ++ "(" ++ rc ++ ") ").data <:+:
              fksS.data)) := by
  refine ⟨?_, ?_, ?_⟩
  · intro fk hmem hbad
    unfold table_creator
    cases hq : buildCreateQuery cat schema with
    | error e => simp [okB]
    | ok q =>
      exfalso
      obtain ⟨t0, colsS, fksS, h1, h2, h3, h4⟩ := buildCreateQuery_parts cat schema q hq
      rw [hfk] at h3
      have h3x : foreignKeysPart cat fks = Except.ok fksS := h3
      have hbadPart := foreignKeysPart_err cat fks fk hmem hbad
      rw [h3x] at hbadPart
      simp [okB] at hbadPart
  · intro hok fk hmem
    unfold table_creator at hok
    cases hq : buildCreateQuery cat schema with
    | error e =>
      rw [hq] at hok
      simp [okB] at hok
    | ok q =>
      obtain ⟨t0, colsS, fksS, h1, h2, h3, h4⟩ := buildCreateQuery_parts cat schema q hq
      rw [hfk] at h3
      have h3x : foreignKeysPart cat fks = Except.ok fksS := h3
      by_contra hcon
      have hbad : okB (allowed_value_column cat fk.name) = false ∨
          okB (allowed_value_table cat fk.references_table) = false ∨
          okB (allowed_value_column cat fk.references_column) = false := by
        cases ha : okB (allowed_value_column cat fk.name) with
        | false => exact Or.inl rfl
        | true =>
          cases hb : okB (allowed_value_table cat fk.references_table) with
          | false => exact Or.inr (Or.inl rfl)
          | true =>
            cases hc2 : okB (allowed_value_column cat fk.references_column) with
            | false => exact Or.inr (Or.inr rfl)
            | true => exact absurd ⟨ha, hb, hc2⟩ hcon
      have hbadPart := foreignKeysPart_err cat fks fk hmem hbad
      rw [h3x] at hbadPart
      simp [okB] at hbadPart
  · intro t0 colsS fksS h1 h2 h3
    constructor
    · have hbq : buildCreateQuery cat schema =
          .ok (removesuffix ("CREATE TABLE IF NOT EXISTS " ++ t0 ++ " (" ++ colsS ++ fksS)
            ", " ++ ");") := by
        unfold buildCreateQuery
        rw [h1, h2, hfk]
        rw [show foreignKeysSection cat (some fks) = foreignKeysPart cat fks from rfl]
        rw [h3]
      unfold table_creator
      rw [hbq]
    · intro fk hmem c t rc hc ht hrc
      exact foreignKeysPart_infix cat fks fksS h3 fk hmem c t rc hc ht hrc

/-- Catalog instance used to witness the foreign-key and CREATE TABLE
theorems: `INT` allowed as datatype, `NOT NULL` and `PRIMARY KEY` as
constraints, no reserved words. -/
def catInt : Catalog :=
  ⟨[fun s => s == "INT"], [fun s => s == "NOT NULL" || s == "PRIMARY KEY"], []⟩

/-- Schema with one column and one foreign key, used to witness C5. -/
def schemaFK : TableSchema :=
  ⟨"Person", [⟨"id", "INT", []⟩], some [⟨"person_id", "Person", "id"⟩]⟩

/-- Witness for C5 at a concrete schema with a foreign key. -/
theorem foreign_key_fields_validated_witness :
    (table_creator catInt schemaFK).stmts =
      [⟨removesuffix ("CREATE TABLE IF NOT EXISTS " ++ "Person" ++ " (" ++ "id int , " ++
        "FOREIGN KEY (person_id) REFERENCES Person(id) , ") ", " ++ ");", []⟩] ∧
    ("FOREIGN KEY (" ++ "person_id" ++ ") REFERENCES " ++ "Person" ++ "(" ++ "id" ++
      ") ").data <:+:
      ("FOREIGN KEY (person_id) REFERENCES Person(id) , " : String).data := by
  have h := (foreign_key_fields_validated catInt schemaFK [⟨"person_id", "Person", "id"⟩]
    rfl).2.2 "Person" "id int , " "FOREIGN KEY (person_id) REFERENCES Person(id) , "
    rfl rfl rfl
  exact ⟨h.1, h.2 ⟨"person_id", "Person", "id"⟩ (List.mem_singleton.mpr rfl)
    "person_id" "Person" "id" rfl rfl rfl⟩

/-- The example schema of C7: table `Person` with a single `id INT NOT NULL
PRIMARY KEY` column and no foreign keys. -/
def personSchema : TableSchema :=
  ⟨"Person", [⟨"id", "INT", ["NOT NULL", "PRIMARY KEY"]⟩], none⟩

/-- C7: for any catalog allowing `INT`, `NOT NULL` and `PRIMARY KEY` and not
reserving `PERSON`/`ID`, `table_creator` on the `Person` example schema
executes exactly `CREATE TABLE IF NOT EXISTS Person (id int NOT NULL PRIMARY
KEY );` (with the trailing space before the closing parenthesis, constraints
in input order) with no bound parameters. -/
theorem create_table_person_example (cat : Catalog)
    (h1 : cat.datatypes.any (fun p => p "INT") = true)
    (h2 : cat.constraints.any (fun p => p "NOT NULL") = true)
    (h3 : cat.constraints.any (fun p => p "PRIMARY KEY") = true)
    (h4 : cat.reserved_words.contains "PERSON" = false)
    (h5 : cat.reserved_words.contains "ID" = false) :
    table_creator cat personSchema =
      ⟨.ok (), [⟨"CREATE TABLE IF NOT EXISTS Person (id int NOT NULL PRIMARY KEY );",
        []⟩]⟩ := by
  have hT : allowed_value_table cat "Person" = .ok "Person" := by
    unfold allowed_value_table clean_reserved_words
    rw [show matchTableNameRe "Person" = true from by decide]
    rw [show pyUpper "Person" = "PERSON" from by decide]
    rw [h4]
    simp
  have hC : allowed_value_column cat "id" = .ok "id" := by
    unfold allowed_value_column clean_reserved_words
    rw [show matchColumnNameRe "id" = true from by decide]
    rw [show pyUpper "id" = "ID" from by decide]
    rw [h5]
    simp
  have hTy : allowed_type cat "INT" = .ok "int" := by
    unfold allowed_type
    rw [show pyUpper "INT" = "INT" from by decide, h1]
    rw [show pyLower "INT" = "int" from by decide]
    simp
  have hN : allowed_constraint cat "NOT NULL" = .ok "NOT NULL" := by
    unfold allowed_constraint
    rw [show pyUpper "NOT NULL" = "NOT NULL" from by decide, h2]
    simp
  have hP : allowed_constraint cat "PRIMARY KEY" = .ok "PRIMARY KEY" := by
    unfold allowed_constraint
    rw [show pyUpper "PRIMARY KEY" = "PRIMARY KEY" from by decide, h3]
    simp
  have hcp : columnsPart cat personSchema.columns = .ok "id int NOT NULL PRIMARY KEY , " := by
    show columnsPart cat [⟨"id", "INT", ["NOT NULL", "PRIMARY KEY"]⟩] = _
    simp only [columnsPart, constraintsPart]
    rw [hC, hTy, hN, hP]
    rfl
  have hb : buildCreateQuery cat personSchema =
      .ok "CREATE TABLE IF NOT EXISTS Person (id int NOT NULL PRIMARY KEY );" := by
    unfold buildCreateQuery
    rw [show personSchema.name = "Person" from rfl, hT, hcp]
    rfl
  unfold table_creator
  rw [hb]

/-- Witness for C7 at the concrete catalog `catInt`. -/
theorem create_table_person_example_witness :
    table_creator catInt personSchema =
      ⟨.ok (), [⟨"CREATE TABLE IF NOT EXISTS Person (id int NOT NULL PRIMARY KEY );",
        []⟩]⟩ :=
  create_table_person_example catInt rfl rfl rfl rfl rfl

/-- C9: `convert_to_python_type` applied to the literal text `"false"`
returns the native boolean `true` (and so does `"true"`), because the boolean
branch converts with non-empty-string truthiness. -/
theorem convert_false_is_true :
    convert_to_python_type "false" = .vbool true ∧
      convert_to_python_type "true" = .vbool true := by
  constructor <;> rfl

end SqlManager
